import Mathlib

/-!
Verification of the storage backend in `src/storage/src/backend.rs`.

The Rust adapter `SledBackendStorage` keeps a `HashMap<String, sled::Db>`
from namespace names to sled database instances; inside a database an
object is a named sled tree (keyspace).  We embed this shallowly:

  * a sled tree is an association list from keys (byte sequences,
    `List Nat`) to values (`List Nat`); sled `insert` is last-write-wins
    replacement, `remove` erases a key;
  * a sled `Db` is an association list from tree names to trees; sled
    always exposes its reserved default keyspace `__sled__default`, so a
    freshly opened database carries that one tree, and `tree_names` is
    the list of names of all trees;
  * the adapter state is an association list from namespace names to
    databases (the `HashMap`; keys are kept unique because insertion is
    guarded by a `contains_key` check in the source).

Tree names are kept as `String`: the Rust code converts object-name
strings to byte vectors (`IVec`) before comparing, and that conversion is
injective, so string equality is byte equality of the names.

The source maps every native engine failure through `SledErrorMapper`
before returning.  Engine calls themselves are infallible in sled running
in-memory except where the source can abort a batch; we model the
possible per-row engine failures of `write` and `delete` with an explicit
oracle (a list of optional engine errors, one entry per row attempted).
The plain `write`/`delete` use the empty oracle: no engine failure.
The mapper itself can panic (`expect`) when a keyspace name is not valid
UTF-8; partiality is modelled by returning `Option`.
-/

deriving instance DecidableEq for Except

namespace Backend

/-- Row key: an arbitrary byte sequence (`Vec<u8>` in the source). -/
abbrev Key := List Nat

/-- Row value: an arbitrary byte sequence (`Vec<u8>` in the source). -/
abbrev Values := List Nat

/-- A row is a key/value pair (`pub type Row = (Key, Values)`). -/
abbrev Row := Key × Values

/-- Modelled from the spec: the `kernel` crate is not under `src/`; its
`SystemError` is "a generic recoverable/unrecoverable system error
carrying an optional machine cause", with the constructors the backend
uses: `unrecoverable(message)`, `unrecoverable_with_cause(message, cause)`
and `io(error)`.  Causes and I/O errors are opaque diagnostic payloads,
modelled as `Nat` tokens. -/
inductive SystemError where
  | unrecoverable (message : String)
  | unrecoverableWithCause (message : String) (cause : Nat)
  | ioError (error : Nat)
deriving DecidableEq

/-- Result shape `SystemResult<T> = Result<T, SystemError>`. -/
abbrev SystemResult (α : Type) := Except SystemError α

/-- Modelled from the spec: the native error type of the backing engine
(`sled::Error`), one constructor per native case matched by the mapper in
the source: collection not found (carrying the missing keyspace name as
bytes), unsupported operation, corruption at an optional position with a
backtrace, reportable bug, and I/O failure.  Backtraces, disk positions
and I/O errors are opaque payloads, modelled as `Nat` tokens. -/
inductive SledError where
  | collectionNotFound (systemFile : List Nat)
  | unsupported (operation : String)
  | corruption (atPos : Option Nat) (bt : Nat)
  | reportableBug (description : String)
  | ioErr (error : Nat)
deriving DecidableEq

/-- UTF-8 decoding of a byte sequence into unicode code points, following
RFC 3629 exactly as Rust `String::from_utf8` does: rejects stray
continuation bytes, overlong encodings, surrogate code points and code
points above `0x10FFFF`; `none` on invalid input. -/
def utf8CodePoints : List Nat → Option (List Nat)
  | [] => some []
  | b1 :: t1 =>
    if b1 < 0x80 then
      (utf8CodePoints t1).map (fun l => b1 :: l)
    else if b1 < 0xC2 then none
    else if b1 < 0xE0 then
      match t1 with
      | b2 :: t2 =>
        if 0x80 ≤ b2 ∧ b2 < 0xC0 then
          (utf8CodePoints t2).map (fun l => ((b1 - 0xC0) * 0x40 + (b2 - 0x80)) :: l)
        else none
      | [] => none
    else if b1 < 0xF0 then
      match t1 with
      | b2 :: b3 :: t3 =>
        if (if b1 = 0xE0 then 0xA0 ≤ b2 ∧ b2 < 0xC0
            else if b1 = 0xED then 0x80 ≤ b2 ∧ b2 < 0xA0
            else 0x80 ≤ b2 ∧ b2 < 0xC0) ∧ 0x80 ≤ b3 ∧ b3 < 0xC0 then
          (utf8CodePoints t3).map
            (fun l => ((b1 - 0xE0) * 0x1000 + (b2 - 0x80) * 0x40 + (b3 - 0x80)) :: l)
        else none
      | _ => none
    else if b1 < 0xF5 then
      match t1 with
      | b2 :: b3 :: b4 :: t4 =>
        if (if b1 = 0xF0 then 0x90 ≤ b2 ∧ b2 < 0xC0
            else if b1 = 0xF4 then 0x80 ≤ b2 ∧ b2 < 0x90
            else 0x80 ≤ b2 ∧ b2 < 0xC0) ∧ 0x80 ≤ b3 ∧ b3 < 0xC0 ∧ 0x80 ≤ b4 ∧ b4 < 0xC0 then
          (utf8CodePoints t4).map
            (fun l => ((b1 - 0xF0) * 0x40000 + (b2 - 0x80) * 0x1000
                        + (b3 - 0x80) * 0x40 + (b4 - 0x80)) :: l)
        else none
      | _ => none
    else none

/-- Rust `String::from_utf8`: decode bytes to a string, `none` when the
bytes are not valid UTF-8. -/
def utf8Decode (bytes : List Nat) : Option String :=
  (utf8CodePoints bytes).map (fun cps => String.mk (cps.map Char.ofNat))

/-- Message built by the mapper for a missing system file (the source
uses `format!` with the decoded name). -/
def collectionNotFoundMsg (name : String) : String :=
  "System file [" ++ name ++ "] can\u0027t be found"

/-- SledErrorMapper::map from the source, one arm per native error case.
The `collection not found` arm decodes the keyspace name with
`String::from_utf8(..).expect(..)`, which panics when the name is not
valid UTF-8; the panic is modelled by returning `none`.  Every other arm
always produces a mapped system error. -/
def SledErrorMapper.map : SledError → Option SystemError
  | .collectionNotFound systemFile =>
    match utf8Decode systemFile with
    | some name => some (.unrecoverable (collectionNotFoundMsg name))
    | none => none
  | .unsupported operation =>
    some (.unrecoverable ("Unsupported operation [" ++ operation ++ "] was used on Sled"))
  | .corruption (some atPos) cause =>
    some (.unrecoverableWithCause ("Sled encountered corruption at " ++ toString atPos) cause)
  | .corruption none cause =>
    some (.unrecoverableWithCause "Sled encountered corruption" cause)
  | .reportableBug description =>
    some (.unrecoverable ("Sled encountered reportable BUG: " ++ description))
  | .ioErr error => some (.ioError error)

/-- Lookup in an association list (first entry with the given key). -/
def assocLookup {β : Type} (k : String) : List (String × β) → Option β
  | [] => none
  | (k', v) :: rest => if k' = k then some v else assocLookup k rest

/-- Replace the value stored under a key in an association list, leaving
other entries untouched (in-place mutation of the entry the Rust code
obtained from the map). -/
def setEntry {β : Type} (k : String) (b : β) : List (String × β) → List (String × β)
  | [] => []
  | (k', v) :: rest =>
    if k' = k then (k, b) :: setEntry k b rest else (k', v) :: setEntry k b rest

/-- Remove every entry with the given key from an association list
(`HashMap::remove` / dropping a keyspace). -/
def eraseKey {β : Type} (k : String) : List (String × β) → List (String × β)
  | [] => []
  | (k', b) :: rest => if k' = k then eraseKey k rest else (k', b) :: eraseKey k rest

/-- Lookup of a row key inside a tree (association list on byte keys). -/
def treeLookup (k : Key) : List Row → Option Values
  | [] => none
  | (k', v) :: rest => if k' = k then some v else treeLookup k rest

/-- Engine `insert`: last-write-wins replacement — overwrite the value
of an existing key in place, or add the key at the end. -/
def treeInsert (k : Key) (v : Values) : List Row → List Row
  | [] => [(k, v)]
  | (k', v') :: rest =>
    if k' = k then (k, v) :: rest else (k', v') :: treeInsert k v rest

/-- Engine `remove`: erase a key from the tree; removing an absent key
leaves the tree unchanged and is not an engine failure. -/
def treeRemove (k : Key) : List Row → List Row
  | [] => []
  | (k', v) :: rest =>
    if k' = k then treeRemove k rest else (k', v) :: treeRemove k rest

/-- Name of the reserved default keyspace every sled database exposes. -/
def defaultTreeName : String := "__sled__default"

/-- An engine database (`sled::Db`): its named keyspaces (trees). -/
structure SledDb where
  trees : List (String × List Row)
deriving DecidableEq

/-- A freshly opened database: only the reserved default keyspace. -/
def SledDb.new : SledDb := ⟨[(defaultTreeName, [])]⟩

/-- Db::tree_names — the names of all keyspaces, the default included. -/
def SledDb.tree_names (db : SledDb) : List String := db.trees.map Prod.fst

/-- Db::open_tree — return the named keyspace, creating it empty if it
does not exist yet; yields the (possibly extended) database and the
content of the keyspace. -/
def SledDb.openTree (db : SledDb) (name : String) : SledDb × List Row :=
  match assocLookup name db.trees with
  | some t => (db, t)
  | none => (⟨db.trees ++ [(name, [])]⟩, [])

/-- SledBackendStorage: the adapter state, a map from namespace names to
owned engine database instances. -/
structure SledBackendStorage where
  namespaces : List (String × SledDb)
deriving DecidableEq

instance : Inhabited SledBackendStorage := ⟨⟨[]⟩⟩

/-- Writing an entire batch of rows into a tree, first row first
(engine-level effect of a fully successful `write` loop). -/
def writeFold (t : List Row) (rows : List Row) : List Row :=
  rows.foldl (fun acc kv => treeInsert kv.1 kv.2 acc) t

/-- Removing an entire batch of keys from a tree, first key first
(engine-level effect of a fully successful `delete` loop). -/
def removeFold (t : List Row) (keys : List Key) : List Row :=
  keys.foldl (fun acc k => treeRemove k acc) t

/-- Value stored by a batch for a key when the same key occurs several
times: the last write wins; `none` when the batch never writes the key. -/
def lastWrite : List Row → Key → Option Values
  | [], _ => none
  | kv :: rest, k =>
    match lastWrite rest k with
    | some v => some v
    | none => if kv.1 = k then some kv.2 else none

/-- Replace one database of the adapter state (the Rust code mutates the
`sled::Db` it borrowed from the `HashMap` in place). -/
def stSetDb (st : SledBackendStorage) (ns : String) (db : SledDb) : SledBackendStorage :=
  ⟨setEntry ns db st.namespaces⟩

/-- Replace one keyspace of a database (the Rust code mutates the tree it
obtained from `open_tree` in place). -/
def dbSetTree (db : SledDb) (name : String) (t : List Row) : SledDb :=
  ⟨setEntry name t db.trees⟩

/-- Rust struct `NamespaceAlreadyExists` (a unit error value). -/
inductive NamespaceAlreadyExists where
  | mk
deriving DecidableEq

/-- Rust struct `NamespaceDoesNotExist` (a unit error value). -/
inductive NamespaceDoesNotExist where
  | mk
deriving DecidableEq

/-- Rust enum `CreateObjectError`. -/
inductive CreateObjectError where
  | NamespaceDoesNotExist
  | ObjectAlreadyExists
deriving DecidableEq

/-- Rust enum `DropObjectError`. -/
inductive DropObjectError where
  | NamespaceDoesNotExist
  | ObjectDoesNotExist
deriving DecidableEq

/-- Rust enum `OperationOnObjectError`. -/
inductive OperationOnObjectError where
  | NamespaceDoesNotExist
  | ObjectDoesNotExist
deriving DecidableEq

/-- SledBackendStorage::create_namespace — refuse when the name is
already registered, otherwise open a fresh temporary database (which
always succeeds for the in-memory engine) and register it. -/
def createNamespace (st : SledBackendStorage) (ns : String) :
    SledBackendStorage × SystemResult (Except NamespaceAlreadyExists Unit) :=
  if (assocLookup ns st.namespaces).isSome then
    (st, .ok (.error NamespaceAlreadyExists.mk))
  else
    (⟨(ns, SledDb.new) :: st.namespaces⟩, .ok (.ok ()))

/-- SledBackendStorage::drop_namespace — remove and release the database
handle; the source performs no fallible engine call here, so the
system-error layer of the result is never used. -/
def dropNamespace (st : SledBackendStorage) (ns : String) :
    SledBackendStorage × SystemResult (Except NamespaceDoesNotExist Unit) :=
  match assocLookup ns st.namespaces with
  | some _ => (⟨eraseKey ns st.namespaces⟩, .ok (.ok ()))
  | none => (st, .ok (.error NamespaceDoesNotExist.mk))

/-- SledBackendStorage::create_object — existence of the object is
decided by membership of its name in `tree_names()`; otherwise
`open_tree` creates the keyspace. -/
def createObject (st : SledBackendStorage) (ns obj : String) :
    SledBackendStorage × SystemResult (Except CreateObjectError Unit) :=
  match assocLookup ns st.namespaces with
  | some db =>
    if obj ∈ db.tree_names then
      (st, .ok (.error CreateObjectError.ObjectAlreadyExists))
    else
      (stSetDb st ns (db.openTree obj).1, .ok (.ok ()))
  | none => (st, .ok (.error CreateObjectError.NamespaceDoesNotExist))

/-- SledBackendStorage::drop_object — `drop_tree` refuses to drop the
reserved default keyspace (engine `Unsupported` error, surfaced through
the mapper); otherwise it reports whether the keyspace existed.  The
`Option` layer models a mapper panic, which never happens here. -/
def dropObject (st : SledBackendStorage) (ns obj : String) :
    SledBackendStorage × Option (SystemResult (Except DropObjectError Unit)) :=
  match assocLookup ns st.namespaces with
  | some db =>
    if obj = defaultTreeName then
      (st, (SledErrorMapper.map (.unsupported "cannot remove the core structures")).map Except.error)
    else if obj ∈ db.tree_names then
      (stSetDb st ns ⟨eraseKey obj db.trees⟩, some (.ok (.ok ())))
    else
      (st, some (.ok (.error DropObjectError.ObjectDoesNotExist)))
  | none => (st, some (.ok (.error DropObjectError.NamespaceDoesNotExist)))

/-- Loop body of `write`: insert the rows one at a time, counting each
successful insertion, aborting on the first engine failure (whose mapped
form is returned; `none` models a mapper panic).  The oracle lists the
engine outcome of each attempted insertion (`none` entry = success);
a missing oracle entry also means success. -/
def writeLoop (oracle : List (Option SledError)) (written : Nat) (t : List Row) :
    List Row → List Row × Option (SystemResult Nat)
  | [] => (t, some (.ok written))
  | (k, v) :: rest =>
    match oracle with
    | some e :: _ => (t, (SledErrorMapper.map e).map Except.error)
    | none :: oracle' => writeLoop oracle' (written + 1) (treeInsert k v t) rest
    | [] => writeLoop [] (written + 1) (treeInsert k v t) rest

/-- Loop body of `delete`: remove the keys one at a time; every removal
the engine accepts increments the counter (also when the key was absent),
aborting on the first engine failure. -/
def deleteLoop (oracle : List (Option SledError)) (deleted : Nat) (t : List Row) :
    List Key → List Row × Option (SystemResult Nat)
  | [] => (t, some (.ok deleted))
  | k :: rest =>
    match oracle with
    | some e :: _ => (t, (SledErrorMapper.map e).map Except.error)
    | none :: oracle' => deleteLoop oracle' (deleted + 1) (treeRemove k t) rest
    | [] => deleteLoop [] (deleted + 1) (treeRemove k t) rest

/-- SledBackendStorage::write with an explicit engine-failure oracle for
the row insertions.  Namespace resolution, the `tree_names` existence
check and `open_tree` mirror the source; on an aborted batch the rows
already inserted stay in the keyspace (no rollback). -/
def writeF (oracle : List (Option SledError)) (st : SledBackendStorage) (ns obj : String)
    (rows : List Row) :
    SledBackendStorage × Option (SystemResult (Except OperationOnObjectError Nat)) :=
  match assocLookup ns st.namespaces with
  | some db =>
    if obj ∈ db.tree_names then
      (stSetDb st ns
        (dbSetTree (db.openTree obj).1 obj (writeLoop oracle 0 (db.openTree obj).2 rows).1),
       ((writeLoop oracle 0 (db.openTree obj).2 rows).2).map (Except.map Except.ok))
    else (st, some (.ok (.error OperationOnObjectError.ObjectDoesNotExist)))
  | none => (st, some (.ok (.error OperationOnObjectError.NamespaceDoesNotExist)))

/-- SledBackendStorage::write with no engine failure. -/
def write (st : SledBackendStorage) (ns obj : String) (rows : List Row) :
    SledBackendStorage × Option (SystemResult (Except OperationOnObjectError Nat)) :=
  writeF [] st ns obj rows

/-- SledBackendStorage::read — existence checks happen eagerly; the
cursor wraps the full scan of the keyspace, and with an infallible
engine every item it yields is a success, so the cursor is modelled by
its list of rows. -/
def readObj (st : SledBackendStorage) (ns obj : String) :
    SystemResult (Except OperationOnObjectError (List Row)) :=
  match assocLookup ns st.namespaces with
  | some db =>
    if obj ∈ db.tree_names then .ok (.ok (db.openTree obj).2)
    else .ok (.error OperationOnObjectError.ObjectDoesNotExist)
  | none => .ok (.error OperationOnObjectError.NamespaceDoesNotExist)

/-- SledBackendStorage::delete with an explicit engine-failure oracle
for the key removals. -/
def deleteF (oracle : List (Option SledError)) (st : SledBackendStorage) (ns obj : String)
    (keys : List Key) :
    SledBackendStorage × Option (SystemResult (Except OperationOnObjectError Nat)) :=
  match assocLookup ns st.namespaces with
  | some db =>
    if obj ∈ db.tree_names then
      (stSetDb st ns
        (dbSetTree (db.openTree obj).1 obj (deleteLoop oracle 0 (db.openTree obj).2 keys).1),
       ((deleteLoop oracle 0 (db.openTree obj).2 keys).2).map (Except.map Except.ok))
    else (st, some (.ok (.error OperationOnObjectError.ObjectDoesNotExist)))
  | none => (st, some (.ok (.error OperationOnObjectError.NamespaceDoesNotExist)))

/-- SledBackendStorage::delete with no engine failure. -/
def delete (st : SledBackendStorage) (ns obj : String) (keys : List Key) :
    SledBackendStorage × Option (SystemResult (Except OperationOnObjectError Nat)) :=
  deleteF [] st ns obj keys

/-- Adapter states reachable from the default (empty) storage instance by
contract operations, engine failures of write/delete batches included. -/
inductive Reachable : SledBackendStorage → Prop where
  | init : Reachable ⟨[]⟩
  | createNamespaceStep {st ns} : Reachable st → Reachable (createNamespace st ns).1
  | dropNamespaceStep {st ns} : Reachable st → Reachable (dropNamespace st ns).1
  | createObjectStep {st ns obj} : Reachable st → Reachable (createObject st ns obj).1
  | dropObjectStep {st ns obj} : Reachable st → Reachable (dropObject st ns obj).1
  | writeStep {oracle st ns obj rows} : Reachable st → Reachable (writeF oracle st ns obj rows).1
  | deleteStep {oracle st ns obj keys} : Reachable st → Reachable (deleteF oracle st ns obj keys).1

/-! Association-list lemmas. -/

theorem assocLookup_setEntry_self {β : Type} (k : String) (b : β) (l : List (String × β)) :
    assocLookup k (setEntry k b l) = (assocLookup k l).map (fun _ => b) := by
  induction l with
  | nil => simp [assocLookup, setEntry]
  | cons p rest ih =>
    obtain ⟨k', v⟩ := p
    by_cases h : k' = k
    · subst h
      simp [assocLookup, setEntry]
    · simpa [assocLookup, setEntry, h] using ih

theorem assocLookup_setEntry_ne {β : Type} {k k' : String} (b : β) (l : List (String × β))
    (h : k' ≠ k) : assocLookup k' (setEntry k b l) = assocLookup k' l := by
  induction l with
  | nil => simp [assocLookup, setEntry]
  | cons p rest ih =>
    obtain ⟨k'', v⟩ := p
    by_cases h2 : k'' = k
    · subst h2
      simpa [assocLookup, setEntry, Ne.symm h, fun he : k'' = k' => h he.symm] using ih
    · by_cases h3 : k'' = k'
      · subst h3
        simp [assocLookup, setEntry, h2, h]
      · simpa [assocLookup, setEntry, h2, h3] using ih

theorem map_fst_setEntry {β : Type} (k : String) (b : β) (l : List (String × β)) :
    (setEntry k b l).map Prod.fst = l.map Prod.fst := by
  induction l with
  | nil => simp [setEntry]
  | cons p rest ih =>
    obtain ⟨k', v⟩ := p
    by_cases h : k' = k
    · subst h
      simpa [setEntry] using ih
    · simpa [setEntry, h] using ih

theorem assocLookup_setEntry_cases {β : Type} {k k' : String} {b d : β}
    {l : List (String × β)} (h : assocLookup k' (setEntry k b l) = some d) :
    d = b ∨ assocLookup k' l = some d := by
  by_cases he : k' = k
  · subst he
    rw [assocLookup_setEntry_self] at h
    cases hl : assocLookup k' l with
    | none => rw [hl] at h; simp at h
    | some x => rw [hl] at h; simp at h; exact Or.inl h.symm
  · right
    rwa [assocLookup_setEntry_ne b l he] at h

theorem assocLookup_eraseKey_self {β : Type} (k : String) (l : List (String × β)) :
    assocLookup k (eraseKey k l) = none := by
  induction l with
  | nil => simp [assocLookup, eraseKey]
  | cons p rest ih =>
    obtain ⟨k', v⟩ := p
    by_cases h : k' = k
    · simpa [eraseKey, h] using ih
    · simpa [eraseKey, assocLookup, h] using ih

theorem assocLookup_eraseKey_ne {β : Type} {k k' : String} (l : List (String × β))
    (h : k' ≠ k) : assocLookup k' (eraseKey k l) = assocLookup k' l := by
  induction l with
  | nil => simp [eraseKey]
  | cons p rest ih =>
    obtain ⟨k'', v⟩ := p
    by_cases h2 : k'' = k
    · subst h2
      have h3 : ¬ k'' = k' := fun he => h (he ▸ rfl)
      simpa [eraseKey, assocLookup, h3] using ih
    · by_cases h3 : k'' = k'
      · subst h3
        simp [eraseKey, assocLookup, h2, h]
      · simpa [eraseKey, assocLookup, h2, h3] using ih

theorem assocLookup_isSome_iff_mem {β : Type} (k : String) (l : List (String × β)) :
    (assocLookup k l).isSome ↔ k ∈ l.map Prod.fst := by
  induction l with
  | nil => simp [assocLookup]
  | cons p rest ih =>
    obtain ⟨k', v⟩ := p
    by_cases h : k' = k
    · subst h
      simp [assocLookup]
    · simp only [assocLookup, if_neg h, List.map_cons, List.mem_cons]
      rw [ih]
      constructor
      · exact Or.inr
      · rintro (he | hm)
        · exact absurd he.symm h
        · exact hm

theorem assocLookup_some_of_mem {β : Type} {k : String} {l : List (String × β)}
    (h : k ∈ l.map Prod.fst) : ∃ b, assocLookup k l = some b := by
  have := (assocLookup_isSome_iff_mem k l).mpr h
  cases hl : assocLookup k l with
  | none => rw [hl] at this; simp at this
  | some b => exact ⟨b, rfl⟩

theorem mem_of_assocLookup_some {β : Type} {k : String} {b : β} {l : List (String × β)}
    (h : assocLookup k l = some b) : k ∈ l.map Prod.fst := by
  have : (assocLookup k l).isSome := by rw [h]; rfl
  exact (assocLookup_isSome_iff_mem k l).mp this

/-! Tree (keyspace) lemmas. -/

theorem treeLookup_treeInsert (k k' : Key) (v : Values) (t : List Row) :
    treeLookup k' (treeInsert k v t) = if k = k' then some v else treeLookup k' t := by
  induction t with
  | nil => by_cases h : k = k' <;> simp [treeInsert, treeLookup, h]
  | cons p rest ih =>
    obtain ⟨k'', v''⟩ := p
    by_cases h : k'' = k
    · subst h
      by_cases h2 : k'' = k'
      · subst h2; simp [treeInsert, treeLookup]
      · simp [treeInsert, treeLookup, h2]
    · by_cases h2 : k'' = k'
      · subst h2
        have h3 : ¬ k = k'' := fun he => h he.symm
        simp [treeInsert, treeLookup, h, h3]
      · simpa [treeInsert, treeLookup, h, h2] using ih

theorem map_fst_treeInsert (k : Key) (v : Values) (t : List Row) :
    (treeInsert k v t).map Prod.fst =
      if k ∈ t.map Prod.fst then t.map Prod.fst else t.map Prod.fst ++ [k] := by
  induction t with
  | nil => simp [treeInsert]
  | cons p rest ih =>
    obtain ⟨k', v'⟩ := p
    by_cases h : k' = k
    · subst h
      simp [treeInsert]
    · by_cases h2 : k ∈ rest.map Prod.fst <;>
        simp [treeInsert, h, Ne.symm h, h2, ih]

theorem nodup_treeInsert {t : List Row} (k : Key) (v : Values)
    (h : (t.map Prod.fst).Nodup) : ((treeInsert k v t).map Prod.fst).Nodup := by
  rw [map_fst_treeInsert]
  by_cases h2 : k ∈ t.map Prod.fst
  · simpa [h2] using h
  · simp only [h2, if_false]
    exact List.Nodup.append h (List.nodup_singleton k) (by simpa using h2)

theorem treeLookup_writeFold (rows : List Row) (t : List Row) (k : Key) :
    treeLookup k (writeFold t rows) =
      match lastWrite rows k with
      | some v => some v
      | none => treeLookup k t := by
  induction rows generalizing t with
  | nil => simp [writeFold, lastWrite]
  | cons kv rest ih =>
    obtain ⟨k', v'⟩ := kv
    have hstep : writeFold t ((k', v') :: rest) = writeFold (treeInsert k' v' t) rest := rfl
    rw [hstep, ih]
    cases hlast : lastWrite rest k with
    | some v => simp [lastWrite, hlast]
    | none =>
      simp only [lastWrite, hlast, treeLookup_treeInsert]
      by_cases h : k' = k <;> simp [h]

theorem nodup_writeFold {t : List Row} (rows : List Row)
    (h : (t.map Prod.fst).Nodup) : ((writeFold t rows).map Prod.fst).Nodup := by
  induction rows generalizing t with
  | nil => simpa [writeFold] using h
  | cons kv rest ih =>
    obtain ⟨k', v'⟩ := kv
    exact ih (nodup_treeInsert k' v' h)

theorem mem_iff_treeLookup {t : List Row} (h : (t.map Prod.fst).Nodup) (k : Key) (v : Values) :
    (k, v) ∈ t ↔ treeLookup k t = some v := by
  induction t with
  | nil => simp [treeLookup]
  | cons p rest ih =>
    obtain ⟨k', v'⟩ := p
    simp only [List.map_cons, List.nodup_cons] at h
    by_cases h2 : k' = k
    · subst h2
      simp only [treeLookup, if_pos rfl, List.mem_cons]
      constructor
      · rintro (he | hm)
        · simp at he
          simp [he]
        · exact absurd (List.mem_map_of_mem Prod.fst hm) h.1
      · intro he
        simp at he
        simp [he]
    · simp only [treeLookup, if_neg h2, List.mem_cons]
      rw [← ih h.2]
      constructor
      · rintro (he | hm)
        · exact absurd (congrArg Prod.fst he).symm h2
        · exact hm
      · exact Or.inr

theorem lastWrite_some_mem {rows : List Row} {k : Key} {v : Values}
    (h : lastWrite rows k = some v) : k ∈ rows.map Prod.fst := by
  induction rows with
  | nil => simp [lastWrite] at h
  | cons kv rest ih =>
    obtain ⟨k', v'⟩ := kv
    simp only [lastWrite] at h
    cases hl : lastWrite rest k with
    | some w =>
      rw [hl] at h
      simp only [Option.some.injEq] at h
      exact List.mem_cons_of_mem k' (ih (by rw [hl, h]))
    | none =>
      rw [hl] at h
      by_cases h2 : k' = k
      · simp [h2]
      · simp [h2] at h

theorem lastWrite_none_of_not_mem {rows : List Row} {k : Key}
    (h : k ∉ rows.map Prod.fst) : lastWrite rows k = none := by
  cases hl : lastWrite rows k with
  | none => rfl
  | some v => exact absurd (lastWrite_some_mem hl) h

theorem lastWrite_eq_treeLookup {rows : List Row} (hn : (rows.map Prod.fst).Nodup)
    (k : Key) : lastWrite rows k = treeLookup k rows := by
  induction rows with
  | nil => rfl
  | cons kv rest ih =>
    obtain ⟨k', v'⟩ := kv
    simp only [List.map_cons, List.nodup_cons] at hn
    simp only [lastWrite, treeLookup, ih hn.2]
    by_cases h2 : k' = k
    · subst h2
      have hnone : treeLookup k' rest = none := by
        rw [← ih hn.2]
        exact lastWrite_none_of_not_mem hn.1
      rw [hnone]
    · cases hl : treeLookup k rest <;> simp [h2, hl]

theorem treeLookup_perm {rows' rows : List Row} (hp : rows'.Perm rows)
    (hn : (rows.map Prod.fst).Nodup) (k : Key) :
    treeLookup k rows' = treeLookup k rows := by
  have hn' : (rows'.map Prod.fst).Nodup := ((hp.map Prod.fst).nodup_iff).mpr hn
  cases h : treeLookup k rows with
  | some v =>
    exact (mem_iff_treeLookup hn' k v).mp (hp.mem_iff.mpr ((mem_iff_treeLookup hn k v).mpr h))
  | none =>
    cases h' : treeLookup k rows' with
    | none => rfl
    | some v =>
      have : (k, v) ∈ rows := hp.mem_iff.mp ((mem_iff_treeLookup hn' k v).mpr h')
      rw [(mem_iff_treeLookup hn k v).mp this] at h
      exact h

theorem treeLookup_writeFold_nil (rows : List Row) (k : Key) :
    treeLookup k (writeFold [] rows) = lastWrite rows k := by
  rw [treeLookup_writeFold]
  cases h : lastWrite rows k <;> simp [treeLookup]

/-! Loop lemmas for write and delete batches. -/

theorem writeLoop_nil (rows : List Row) : ∀ (c : Nat) (t : List Row),
    writeLoop [] c t rows = (writeFold t rows, some (.ok (c + rows.length))) := by
  induction rows with
  | nil => intro c t; simp [writeLoop, writeFold]
  | cons kv rest ih =>
    intro c t
    obtain ⟨k, v⟩ := kv
    have h1 : writeLoop [] c t ((k, v) :: rest)
        = writeLoop [] (c + 1) (treeInsert k v t) rest := rfl
    have h2 : writeFold t ((k, v) :: rest) = writeFold (treeInsert k v t) rest := rfl
    rw [h1, ih, h2]
    have h3 : c + 1 + rest.length = c + ((k, v) :: rest).length := by
      simp
      omega
    rw [h3]

theorem deleteLoop_nil (keys : List Key) : ∀ (c : Nat) (t : List Row),
    deleteLoop [] c t keys = (removeFold t keys, some (.ok (c + keys.length))) := by
  induction keys with
  | nil => intro c t; simp [deleteLoop, removeFold]
  | cons k rest ih =>
    intro c t
    have h1 : deleteLoop [] c t (k :: rest)
        = deleteLoop [] (c + 1) (treeRemove k t) rest := rfl
    have h2 : removeFold t (k :: rest) = removeFold (treeRemove k t) rest := rfl
    rw [h1, ih, h2]
    have h3 : c + 1 + rest.length = c + (k :: rest).length := by
      simp
      omega
    rw [h3]

theorem writeLoop_fail (e : SledError) :
    ∀ (i : Nat) (rows : List Row) (c : Nat) (t : List Row), i < rows.length →
      writeLoop (List.replicate i none ++ [some e]) c t rows =
        (writeFold t (rows.take i), (SledErrorMapper.map e).map Except.error) := by
  intro i
  induction i with
  | zero =>
    intro rows c t h
    match rows with
    | [] => simp at h
    | (k, v) :: rest => simp [writeLoop, writeFold]
  | succ i ih =>
    intro rows c t h
    match rows with
    | [] => simp at h
    | (k, v) :: rest =>
      have hstep : writeLoop (List.replicate (i + 1) none ++ [some e]) c t ((k, v) :: rest)
          = writeLoop (List.replicate i none ++ [some e]) (c + 1) (treeInsert k v t) rest := rfl
      rw [hstep, ih rest (c + 1) (treeInsert k v t) (by simpa using h)]
      simp only [List.take_succ_cons]
      rfl

/-! Operation-level helper lemmas. -/

theorem openTree_of_lookup {db : SledDb} {obj : String} {t : List Row}
    (h : assocLookup obj db.trees = some t) : db.openTree obj = (db, t) := by
  simp [SledDb.openTree, h]

theorem mem_tree_names {db : SledDb} {obj : String} :
    obj ∈ db.tree_names ↔ (assocLookup obj db.trees).isSome :=
  (assocLookup_isSome_iff_mem obj db.trees).symm

theorem writeF_eq {st : SledBackendStorage} {ns obj : String} {db : SledDb} {t0 : List Row}
    (oracle : List (Option SledError)) (rows : List Row)
    (h1 : assocLookup ns st.namespaces = some db)
    (h2 : assocLookup obj db.trees = some t0) :
    writeF oracle st ns obj rows =
      (stSetDb st ns (dbSetTree db obj (writeLoop oracle 0 t0 rows).1),
       ((writeLoop oracle 0 t0 rows).2).map (Except.map Except.ok)) := by
  have hmem : obj ∈ db.tree_names := mem_tree_names.mpr (by simp [h2])
  simp [writeF, h1, hmem, openTree_of_lookup h2]

theorem deleteF_eq {st : SledBackendStorage} {ns obj : String} {db : SledDb} {t0 : List Row}
    (oracle : List (Option SledError)) (keys : List Key)
    (h1 : assocLookup ns st.namespaces = some db)
    (h2 : assocLookup obj db.trees = some t0) :
    deleteF oracle st ns obj keys =
      (stSetDb st ns (dbSetTree db obj (deleteLoop oracle 0 t0 keys).1),
       ((deleteLoop oracle 0 t0 keys).2).map (Except.map Except.ok)) := by
  have hmem : obj ∈ db.tree_names := mem_tree_names.mpr (by simp [h2])
  simp [deleteF, h1, hmem, openTree_of_lookup h2]

theorem write_count {st : SledBackendStorage} {ns obj : String} {db : SledDb}
    (rows : List Row) (h1 : assocLookup ns st.namespaces = some db)
    (hmem : obj ∈ db.tree_names) :
    (write st ns obj rows).2 = some (.ok (.ok rows.length)) := by
  obtain ⟨t0, h2⟩ := Option.isSome_iff_exists.mp (mem_tree_names.mp hmem)
  rw [write, writeF_eq [] rows h1 h2, writeLoop_nil]
  simp [Except.map]

theorem delete_count {st : SledBackendStorage} {ns obj : String} {db : SledDb}
    (keys : List Key) (h1 : assocLookup ns st.namespaces = some db)
    (hmem : obj ∈ db.tree_names) :
    (delete st ns obj keys).2 = some (.ok (.ok keys.length)) := by
  obtain ⟨t0, h2⟩ := Option.isSome_iff_exists.mp (mem_tree_names.mp hmem)
  rw [delete, deleteF_eq [] keys h1 h2, deleteLoop_nil]
  simp [Except.map]

/-! Invariant: every database registered in the adapter exposes the
reserved default keyspace of the engine. -/

/-- Every namespace of the state owns a database whose keyspace listing
contains the reserved default keyspace name. -/
def DefaultEverywhere (st : SledBackendStorage) : Prop :=
  ∀ ns db, assocLookup ns st.namespaces = some db → defaultTreeName ∈ db.tree_names

theorem tree_names_new : SledDb.new.tree_names = [defaultTreeName] := rfl

theorem tree_names_dbSetTree (db : SledDb) (name : String) (t : List Row) :
    (dbSetTree db name t).tree_names = db.tree_names :=
  map_fst_setEntry name t db.trees

theorem tree_names_openTree (db : SledDb) (name : String) :
    ((db.openTree name).1).tree_names = db.tree_names ∨
      ((db.openTree name).1).tree_names = db.tree_names ++ [name] := by
  cases h : assocLookup name db.trees with
  | some t => left; simp [SledDb.openTree, h]
  | none => right; simp [SledDb.openTree, h, SledDb.tree_names]

theorem assocLookup_eraseKey_some {β : Type} {k k' : String} {d : β} {l : List (String × β)}
    (h : assocLookup k' (eraseKey k l) = some d) : assocLookup k' l = some d := by
  by_cases h2 : k' = k
  · subst h2
    rw [assocLookup_eraseKey_self] at h
    exact absurd h (by simp)
  · rwa [assocLookup_eraseKey_ne l h2] at h

theorem de_stSetDb {st : SledBackendStorage} {ns : String} {db' : SledDb}
    (h : DefaultEverywhere st) (hdb : defaultTreeName ∈ db'.tree_names) :
    DefaultEverywhere (stSetDb st ns db') := by
  intro ns' d hd
  rcases assocLookup_setEntry_cases hd with he | ho
  · rw [he]; exact hdb
  · exact h ns' d ho

theorem de_createNamespace {st : SledBackendStorage} (ns : String)
    (h : DefaultEverywhere st) : DefaultEverywhere (createNamespace st ns).1 := by
  by_cases hc : (assocLookup ns st.namespaces).isSome
  · simpa [createNamespace, hc] using h
  · simp only [createNamespace, hc, if_false]
    intro ns' d hd
    simp only [assocLookup] at hd
    by_cases he : ns = ns'
    · rw [if_pos he] at hd
      cases hd
      rw [tree_names_new]
      exact List.mem_singleton.mpr rfl
    · exact h ns' d (by rwa [if_neg he] at hd)

theorem de_dropNamespace {st : SledBackendStorage} (ns : String)
    (h : DefaultEverywhere st) : DefaultEverywhere (dropNamespace st ns).1 := by
  cases hl : assocLookup ns st.namespaces with
  | none => simpa [dropNamespace, hl] using h
  | some db =>
    simp only [dropNamespace, hl]
    intro ns' d hd
    exact h ns' d (assocLookup_eraseKey_some hd)

theorem de_createObject {st : SledBackendStorage} (ns obj : String)
    (h : DefaultEverywhere st) : DefaultEverywhere (createObject st ns obj).1 := by
  cases hl : assocLookup ns st.namespaces with
  | none => simpa [createObject, hl] using h
  | some db =>
    by_cases hmem : obj ∈ db.tree_names
    · simpa [createObject, hl, hmem] using h
    · simp only [createObject, hl, if_neg hmem]
      refine de_stSetDb h ?_
      rcases tree_names_openTree db obj with ho | ho
      · rw [ho]; exact h ns db hl
      · rw [ho]; exact List.mem_append_left _ (h ns db hl)

theorem de_dropObject {st : SledBackendStorage} (ns obj : String)
    (h : DefaultEverywhere st) : DefaultEverywhere (dropObject st ns obj).1 := by
  cases hl : assocLookup ns st.namespaces with
  | none => simpa [dropObject, hl] using h
  | some db =>
    by_cases hdef : obj = defaultTreeName
    · simpa [dropObject, hl, hdef] using h
    · by_cases hmem : obj ∈ db.tree_names
      · simp only [dropObject, hl, if_neg hdef, if_pos hmem]
        refine de_stSetDb h ?_
        have hd : defaultTreeName ∈ db.tree_names := h ns db hl
        have hds : (assocLookup defaultTreeName db.trees).isSome := mem_tree_names.mp hd
        have : assocLookup defaultTreeName (eraseKey obj db.trees)
            = assocLookup defaultTreeName db.trees :=
          assocLookup_eraseKey_ne db.trees (fun he => hdef he.symm)
        exact (assocLookup_isSome_iff_mem _ _).mp (by rwa [this])
      · simpa [dropObject, hl, hdef, hmem] using h

theorem de_writeF {st : SledBackendStorage} (oracle : List (Option SledError))
    (ns obj : String) (rows : List Row) (h : DefaultEverywhere st) :
    DefaultEverywhere (writeF oracle st ns obj rows).1 := by
  cases hl : assocLookup ns st.namespaces with
  | none => simpa [writeF, hl] using h
  | some db =>
    by_cases hmem : obj ∈ db.tree_names
    · simp only [writeF, hl, if_pos hmem]
      refine de_stSetDb h ?_
      rw [tree_names_dbSetTree]
      rcases tree_names_openTree db obj with ho | ho
      · rw [ho]; exact h ns db hl
      · rw [ho]; exact List.mem_append_left _ (h ns db hl)
    · simpa [writeF, hl, hmem] using h

theorem de_deleteF {st : SledBackendStorage} (oracle : List (Option SledError))
    (ns obj : String) (keys : List Key) (h : DefaultEverywhere st) :
    DefaultEverywhere (deleteF oracle st ns obj keys).1 := by
  cases hl : assocLookup ns st.namespaces with
  | none => simpa [deleteF, hl] using h
  | some db =>
    by_cases hmem : obj ∈ db.tree_names
    · simp only [deleteF, hl, if_pos hmem]
      refine de_stSetDb h ?_
      rw [tree_names_dbSetTree]
      rcases tree_names_openTree db obj with ho | ho
      · rw [ho]; exact h ns db hl
      · rw [ho]; exact List.mem_append_left _ (h ns db hl)
    · simpa [deleteF, hl, hmem] using h

theorem reachable_defaultEverywhere {st : SledBackendStorage} (h : Reachable st) :
    DefaultEverywhere st := by
  induction h with
  | init => intro ns db hd; simp [assocLookup] at hd
  | createNamespaceStep _ ih => exact de_createNamespace _ ih
  | dropNamespaceStep _ ih => exact de_dropNamespace _ ih
  | createObjectStep _ ih => exact de_createObject _ _ ih
  | dropObjectStep _ ih => exact de_dropObject _ _ ih
  | writeStep _ ih => exact de_writeF _ _ _ _ ih
  | deleteStep _ ih => exact de_deleteF _ _ _ _ ih

theorem createNamespace_of_some {st : SledBackendStorage} {ns : String} {db : SledDb}
    (h : assocLookup ns st.namespaces = some db) :
    createNamespace st ns = (st, .ok (.error NamespaceAlreadyExists.mk)) := by
  simp [createNamespace, h]

theorem createNamespace_of_none {st : SledBackendStorage} {ns : String}
    (h : assocLookup ns st.namespaces = none) :
    createNamespace st ns = (⟨(ns, SledDb.new) :: st.namespaces⟩, .ok (.ok ())) := by
  simp [createNamespace, h]

theorem dropNamespace_of_some {st : SledBackendStorage} {ns : String} {db : SledDb}
    (h : assocLookup ns st.namespaces = some db) :
    dropNamespace st ns = (⟨eraseKey ns st.namespaces⟩, .ok (.ok ())) := by
  simp [dropNamespace, h]

theorem dropNamespace_of_none {st : SledBackendStorage} {ns : String}
    (h : assocLookup ns st.namespaces = none) :
    dropNamespace st ns = (st, .ok (.error NamespaceDoesNotExist.mk)) := by
  simp [dropNamespace, h]

/-! Claim theorems. -/

/-- C9: drop_namespace never returns a system-level error — for every
storage state and every name its result is always the domain-level
outcome: success exactly when the name is present in the namespace map,
NamespaceDoesNotExist when it is absent; the system-error layer of the
return shape is never produced, as releasing the database handle
involves no fallible engine call. -/
theorem C9_dropNamespace_total (st : SledBackendStorage) (ns : String) :
    (dropNamespace st ns).2 =
      Except.ok (match assocLookup ns st.namespaces with
        | some _ => Except.ok ()
        | none => Except.error NamespaceDoesNotExist.mk) := by
  cases h : assocLookup ns st.namespaces <;> simp [dropNamespace, h]

/-- C5: starting from a state where the name is absent, create_namespace
succeeds, a second create_namespace returns NamespaceAlreadyExists, and
after drop_namespace succeeds (leaving no entry behind) a further
create_namespace succeeds again. -/
theorem C5_namespace_lifecycle (st : SledBackendStorage) (n : String)
    (h : assocLookup n st.namespaces = none) :
    (createNamespace st n).2 = .ok (.ok ()) ∧
    (createNamespace (createNamespace st n).1 n).2 = .ok (.error NamespaceAlreadyExists.mk) ∧
    (dropNamespace (createNamespace st n).1 n).2 = .ok (.ok ()) ∧
    assocLookup n ((dropNamespace (createNamespace st n).1 n).1).namespaces = none ∧
    (createNamespace (dropNamespace (createNamespace st n).1 n).1 n).2 = .ok (.ok ()) := by
  have h2 : createNamespace st n = (⟨(n, SledDb.new) :: st.namespaces⟩, .ok (.ok ())) :=
    createNamespace_of_none h
  have hlook : assocLookup n ((createNamespace st n).1).namespaces = some SledDb.new := by
    rw [h2]; simp [assocLookup]
  have h3 : dropNamespace (createNamespace st n).1 n
      = (⟨eraseKey n ((createNamespace st n).1).namespaces⟩, .ok (.ok ())) :=
    dropNamespace_of_some hlook
  have h4 : assocLookup n ((dropNamespace (createNamespace st n).1 n).1).namespaces = none := by
    rw [h3]
    exact assocLookup_eraseKey_self n _
  refine ⟨by rw [h2], ?_, by rw [h3], h4, ?_⟩
  · rw [createNamespace_of_some hlook]
  · rw [createNamespace_of_none h4]

/-- Witness for C5 at the empty storage instance and the name ns. -/
theorem C5_witness :
    (createNamespace ⟨[]⟩ "ns").2 = .ok (.ok ()) ∧
    (createNamespace (createNamespace ⟨[]⟩ "ns").1 "ns").2
      = .ok (.error NamespaceAlreadyExists.mk) ∧
    (dropNamespace (createNamespace ⟨[]⟩ "ns").1 "ns").2 = .ok (.ok ()) ∧
    assocLookup "ns" ((dropNamespace (createNamespace ⟨[]⟩ "ns").1 "ns").1).namespaces = none ∧
    (createNamespace (dropNamespace (createNamespace ⟨[]⟩ "ns").1 "ns").1 "ns").2
      = .ok (.ok ()) :=
  C5_namespace_lifecycle ⟨[]⟩ "ns" rfl

/-- C7: with no engine failure, write against an existing namespace and
object succeeds and returns the number of rows of the batch — every row
counted, overwrites of an existing key included. -/
theorem C7_write_counts_all_rows (st : SledBackendStorage) (ns obj : String)
    (db : SledDb) (rows : List Row)
    (h1 : assocLookup ns st.namespaces = some db) (hmem : obj ∈ db.tree_names) :
    (write st ns obj rows).2 = some (.ok (.ok rows.length)) :=
  write_count rows h1 hmem

/-- Witness for C7: a batch of two rows with the same key is counted as
two written rows. -/
theorem C7_witness :
    (write ((createObject ((createNamespace ⟨[]⟩ "ns").1) "ns" "t").1)
        "ns" "t" [([1], [10]), ([1], [20])]).2 = some (.ok (.ok 2)) :=
  C7_write_counts_all_rows _ "ns" "t" ⟨[(defaultTreeName, []), ("t", [])]⟩ _
    rfl (by decide)

/-- C1, counterexample: in an object holding exactly the row with key
[1], deleting the absent key [9] does not remove anything — reading back
still yields the same single row — yet the returned count is 1, not 0:
an absent key does increment the returned count, so the count does not
equal the number of keys actually present and removed. -/
theorem C1_counterexample :
    readObj (write ((createObject ((createNamespace ⟨[]⟩ "ns").1) "ns" "t").1)
        "ns" "t" [([1], [2])]).1 "ns" "t" = .ok (.ok [([1], [2])]) ∧
    (delete (write ((createObject ((createNamespace ⟨[]⟩ "ns").1) "ns" "t").1)
        "ns" "t" [([1], [2])]).1 "ns" "t" [[9]]).2 = some (.ok (.ok 1)) ∧
    readObj (delete (write ((createObject ((createNamespace ⟨[]⟩ "ns").1) "ns" "t").1)
        "ns" "t" [([1], [2])]).1 "ns" "t" [[9]]).1 "ns" "t" = .ok (.ok [([1], [2])]) := by
  refine ⟨by decide, by decide, by decide⟩

/-- C1, amended: for every existing namespace and object, delete returns
the number of listed keys — every removal attempt the engine accepts is
counted, whether or not the key was present (removing an absent key is
not an error and still increments the count). -/
theorem C1_delete_counts_every_key (st : SledBackendStorage) (ns obj : String)
    (db : SledDb) (keys : List Key)
    (h1 : assocLookup ns st.namespaces = some db) (hmem : obj ∈ db.tree_names) :
    (delete st ns obj keys).2 = some (.ok (.ok keys.length)) :=
  delete_count keys h1 hmem

/-- Witness for C1 (amended): deleting one present and one absent key
returns count 2. -/
theorem C1_witness :
    (delete (write ((createObject ((createNamespace ⟨[]⟩ "ns").1) "ns" "t").1)
        "ns" "t" [([1], [2])]).1 "ns" "t" [[1], [9]]).2 = some (.ok (.ok 2)) :=
  C1_delete_counts_every_key _ "ns" "t"
    ⟨[(defaultTreeName, []), ("t", [([1], [2])])]⟩ _ rfl (by decide)

/-- C2, counterexample: the reserved default keyspace name behaves as an
existing object although it was never created: in a freshly created
namespace with no create_object call at all, write and read against
__sled__default succeed instead of returning ObjectDoesNotExist. -/
theorem C2_counterexample :
    (write ((createNamespace ⟨[]⟩ "ns").1) "ns" "__sled__default" [([1], [2])]).2
      = some (.ok (.ok 1)) ∧
    readObj ((createNamespace ⟨[]⟩ "ns").1) "ns" "__sled__default" = .ok (.ok []) := by
  refine ⟨by decide, by decide⟩

/-- C2, amended: for every (ns, obj) pair where obj is not present in the
keyspace listing of the namespace (equivalently: never created and not
the engine reserved default keyspace name), write, read and delete
return ObjectDoesNotExist when ns exists, and NamespaceDoesNotExist when
ns does not exist — namespace absence takes precedence. -/
theorem C2_missing_target_errors (st : SledBackendStorage) (ns obj : String)
    (rows : List Row) (keys : List Key) :
    (assocLookup ns st.namespaces = none →
      (write st ns obj rows).2
          = some (.ok (.error OperationOnObjectError.NamespaceDoesNotExist)) ∧
      readObj st ns obj = .ok (.error OperationOnObjectError.NamespaceDoesNotExist) ∧
      (delete st ns obj keys).2
          = some (.ok (.error OperationOnObjectError.NamespaceDoesNotExist))) ∧
    (∀ db, assocLookup ns st.namespaces = some db → obj ∉ db.tree_names →
      (write st ns obj rows).2
          = some (.ok (.error OperationOnObjectError.ObjectDoesNotExist)) ∧
      readObj st ns obj = .ok (.error OperationOnObjectError.ObjectDoesNotExist) ∧
      (delete st ns obj keys).2
          = some (.ok (.error OperationOnObjectError.ObjectDoesNotExist))) := by
  constructor
  · intro h
    refine ⟨?_, ?_, ?_⟩ <;> simp [write, delete, writeF, deleteF, readObj, h]
  · intro db h hmem
    refine ⟨?_, ?_, ?_⟩ <;> simp [write, delete, writeF, deleteF, readObj, h, hmem]

/-- Witness for C2 (amended): both branches at concrete states — a
missing namespace, and an existing namespace with a never-created object
name distinct from the reserved default keyspace. -/
theorem C2_witness :
    readObj ⟨[]⟩ "ns" "t" = .ok (.error OperationOnObjectError.NamespaceDoesNotExist) ∧
    (write ((createNamespace ⟨[]⟩ "ns").1) "ns" "t" []).2
      = some (.ok (.error OperationOnObjectError.ObjectDoesNotExist)) :=
  ⟨((C2_missing_target_errors ⟨[]⟩ "ns" "t" [] []).1 rfl).2.1,
   ((C2_missing_target_errors ((createNamespace ⟨[]⟩ "ns").1) "ns" "t" [] []).2
      SledDb.new rfl (by decide)).1⟩

/-- C4: dropping an existing namespace succeeds and erases it; creating
the namespace again succeeds and yields a fresh database owning no
objects beyond the engine reserved default keyspace: create_object of
any object name other than the reserved default (in particular of every
object name that could ever have been created) succeeds again, and
write/read/delete against such a name report ObjectDoesNotExist rather
than silently succeeding on old state. -/
theorem C4_drop_namespace_resets (st : SledBackendStorage) (ns : String) (db : SledDb)
    (hns : assocLookup ns st.namespaces = some db) :
    (dropNamespace st ns).2 = .ok (.ok ()) ∧
    assocLookup ns ((dropNamespace st ns).1).namespaces = none ∧
    (createNamespace (dropNamespace st ns).1 ns).2 = .ok (.ok ()) ∧
    assocLookup ns ((createNamespace (dropNamespace st ns).1 ns).1).namespaces
      = some SledDb.new ∧
    (∀ obj, obj ≠ defaultTreeName →
      (createObject (createNamespace (dropNamespace st ns).1 ns).1 ns obj).2
          = .ok (.ok ()) ∧
      (∀ rows, (write (createNamespace (dropNamespace st ns).1 ns).1 ns obj rows).2
          = some (.ok (.error OperationOnObjectError.ObjectDoesNotExist))) ∧
      readObj (createNamespace (dropNamespace st ns).1 ns).1 ns obj
          = .ok (.error OperationOnObjectError.ObjectDoesNotExist) ∧
      (∀ keys, (delete (createNamespace (dropNamespace st ns).1 ns).1 ns obj keys).2
          = some (.ok (.error OperationOnObjectError.ObjectDoesNotExist)))) := by
  have h1 : dropNamespace st ns = (⟨eraseKey ns st.namespaces⟩, .ok (.ok ())) :=
    dropNamespace_of_some hns
  have h2 : assocLookup ns ((dropNamespace st ns).1).namespaces = none := by
    rw [h1]
    exact assocLookup_eraseKey_self ns _
  have h3 : createNamespace (dropNamespace st ns).1 ns
      = (⟨(ns, SledDb.new) :: ((dropNamespace st ns).1).namespaces⟩, .ok (.ok ())) :=
    createNamespace_of_none h2
  have h4 : assocLookup ns ((createNamespace (dropNamespace st ns).1 ns).1).namespaces
      = some SledDb.new := by
    rw [h3]
    simp [assocLookup]
  refine ⟨by rw [h1], h2, by rw [h3], h4, ?_⟩
  intro obj hobj
  have hm : obj ∉ SledDb.new.tree_names := by
    rw [tree_names_new]
    simp [hobj]
  refine ⟨?_, ?_, ?_, ?_⟩
  · simp [createObject, h4, hm]
  · intro rows
    simp [write, writeF, h4, hm]
  · simp [readObj, h4, hm]
  · intro keys
    simp [delete, deleteF, h4, hm]

/-- Witness for C4 at a state that owns one created object named t. -/
theorem C4_witness :
    (dropNamespace ((createObject ((createNamespace ⟨[]⟩ "ns").1) "ns" "t").1) "ns").2
      = .ok (.ok ()) ∧
    (createObject
        (createNamespace
          (dropNamespace ((createObject ((createNamespace ⟨[]⟩ "ns").1) "ns" "t").1) "ns").1
          "ns").1 "ns" "t").2 = .ok (.ok ()) ∧
    readObj
        (createNamespace
          (dropNamespace ((createObject ((createNamespace ⟨[]⟩ "ns").1) "ns" "t").1) "ns").1
          "ns").1 "ns" "t" = .ok (.error OperationOnObjectError.ObjectDoesNotExist) :=
  have h := C4_drop_namespace_resets
    ((createObject ((createNamespace ⟨[]⟩ "ns").1) "ns" "t").1) "ns"
    ⟨[(defaultTreeName, []), ("t", [])]⟩ rfl
  ⟨h.1, (h.2.2.2.2 "t" (by decide)).1, (h.2.2.2.2 "t" (by decide)).2.2.1⟩

/-- C6: when the engine rejects the insertion of row number i of a batch
(all earlier insertions succeeding), write aborts at once and returns the
mapped system error — not a domain error — while the rows inserted
before the failing row remain inserted in the keyspace and the remaining
rows are never inserted (no rollback). -/
theorem C6_write_partial_failure (st : SledBackendStorage) (ns obj : String)
    (db : SledDb) (t0 : List Row) (rows : List Row) (i : Nat) (e : SledError)
    (se : SystemError)
    (h1 : assocLookup ns st.namespaces = some db)
    (h2 : assocLookup obj db.trees = some t0)
    (hi : i < rows.length)
    (hm : SledErrorMapper.map e = some se) :
    writeF (List.replicate i none ++ [some e]) st ns obj rows =
      (stSetDb st ns (dbSetTree db obj (writeFold t0 (List.take i rows))),
       some (.error se)) := by
  rw [writeF_eq _ rows h1 h2, writeLoop_fail e i rows 0 t0 hi]
  simp [hm, Except.map]

/-- Witness for C6: a batch of three rows whose second insertion fails
keeps exactly the first row and surfaces the mapped engine error. -/
theorem C6_witness :
    writeF (List.replicate 1 none ++ [some (SledError.unsupported "op")])
        ((createObject ((createNamespace ⟨[]⟩ "ns").1) "ns" "t").1)
        "ns" "t" [([1], [10]), ([2], [20]), ([3], [30])] =
      (stSetDb ((createObject ((createNamespace ⟨[]⟩ "ns").1) "ns" "t").1) "ns"
        (dbSetTree ⟨[(defaultTreeName, []), ("t", [])]⟩ "t"
          (writeFold [] (List.take 1 [([1], [10]), ([2], [20]), ([3], [30])]))),
       some (.error (SystemError.unrecoverable
          "Unsupported operation [op] was used on Sled"))) :=
  C6_write_partial_failure _ "ns" "t" ⟨[(defaultTreeName, []), ("t", [])]⟩ []
    [([1], [10]), ([2], [20]), ([3], [30])] 1 (SledError.unsupported "op") _
    rfl rfl (by decide) rfl

/-- C8: the error mapper translates the engine collection-not-found
error into an unrecoverable system error whose message identifies the
missing resource by decoding its name as text; when the name is not
valid text the mapping itself fails (the modelled panic) and produces no
normal mapped result. -/
theorem C8_collection_not_found_mapping (bytes : List Nat) :
    (∀ s, utf8Decode bytes = some s →
      SledErrorMapper.map (.collectionNotFound bytes)
        = some (SystemError.unrecoverable (collectionNotFoundMsg s))) ∧
    (utf8Decode bytes = none →
      SledErrorMapper.map (.collectionNotFound bytes) = none) := by
  constructor
  · intro s hs
    simp [SledErrorMapper.map, hs]
  · intro hs
    simp [SledErrorMapper.map, hs]

/-- Witness for C8: the name test decodes and is embedded in the
message; the lone byte 255 is not valid UTF-8 and the mapping fails. -/
theorem C8_witness :
    SledErrorMapper.map (.collectionNotFound [116, 101, 115, 116])
      = some (SystemError.unrecoverable (collectionNotFoundMsg "test")) ∧
    SledErrorMapper.map (.collectionNotFound [255]) = none :=
  ⟨(C8_collection_not_found_mapping [116, 101, 115, 116]).1 "test" rfl,
   (C8_collection_not_found_mapping [255]).2 rfl⟩

/-- C10: in every namespace of every reachable adapter state, the engine
reserved default keyspace name behaves as an object that exists without
ever having been created: create_object of that name returns
ObjectAlreadyExists, and write, read and delete against it succeed —
existence is decided by membership in the keyspace listing, which always
contains the default keyspace. -/
theorem C10_default_keyspace (st : SledBackendStorage) (ns : String) (db : SledDb)
    (hr : Reachable st) (hns : assocLookup ns st.namespaces = some db) :
    (createObject st ns defaultTreeName).2
        = .ok (.error CreateObjectError.ObjectAlreadyExists) ∧
    (∀ rows, (write st ns defaultTreeName rows).2 = some (.ok (.ok rows.length))) ∧
    (∃ t, readObj st ns defaultTreeName = .ok (.ok t)) ∧
    (∀ keys, (delete st ns defaultTreeName keys).2 = some (.ok (.ok keys.length))) := by
  have hmem : defaultTreeName ∈ db.tree_names := reachable_defaultEverywhere hr ns db hns
  obtain ⟨t0, ht0⟩ := Option.isSome_iff_exists.mp (mem_tree_names.mp hmem)
  refine ⟨?_, ?_, ⟨t0, ?_⟩, ?_⟩
  · simp [createObject, hns, hmem]
  · intro rows
    exact write_count rows hns hmem
  · simp [readObj, hns, hmem, openTree_of_lookup ht0]
  · intro keys
    exact delete_count keys hns hmem

/-- Witness for C10 at a freshly created namespace with no create_object
call at all. -/
theorem C10_witness :
    (createObject ((createNamespace ⟨[]⟩ "ns").1) "ns" defaultTreeName).2
        = .ok (.error CreateObjectError.ObjectAlreadyExists) ∧
    (write ((createNamespace ⟨[]⟩ "ns").1) "ns" defaultTreeName [([1], [2])]).2
        = some (.ok (.ok 1)) :=
  ⟨(C10_default_keyspace _ "ns" SledDb.new
      (@Reachable.createNamespaceStep ⟨[]⟩ "ns" Reachable.init) rfl).1,
   (C10_default_keyspace _ "ns" SledDb.new
      (@Reachable.createNamespaceStep ⟨[]⟩ "ns" Reachable.init) rfl).2.1 [([1], [2])]⟩

/-- C3: writing a batch of rows to an existing, initially empty object
and reading it back yields exactly the written rows: the read content is
the insertion fold of the batch, its keys carry no duplicate, a row
(k, v) is read back exactly when v is the last value the batch wrote for
k (values byte-identical, last write wins for a repeated key), and for a
batch with pairwise distinct keys the read-back content does not depend
on the insertion order. -/
theorem C3_write_read_roundtrip (st : SledBackendStorage) (ns obj : String) (db : SledDb)
    (rows : List Row)
    (h1 : assocLookup ns st.namespaces = some db)
    (h2 : assocLookup obj db.trees = some []) :
    readObj (write st ns obj rows).1 ns obj = .ok (.ok (writeFold [] rows)) ∧
    ((writeFold [] rows).map Prod.fst).Nodup ∧
    (∀ k v, ((k, v) ∈ writeFold [] rows ↔ lastWrite rows k = some v)) ∧
    (∀ rows', rows'.Perm rows → (rows.map Prod.fst).Nodup →
      ∀ k v, ((k, v) ∈ writeFold ([] : List Row) rows'
        ↔ (k, v) ∈ writeFold ([] : List Row) rows)) := by
  have hnodup : ((writeFold [] rows).map Prod.fst).Nodup := nodup_writeFold rows (by simp)
  have hchar : ∀ k v, ((k, v) ∈ writeFold [] rows ↔ lastWrite rows k = some v) := by
    intro k v
    rw [mem_iff_treeLookup hnodup k v, treeLookup_writeFold_nil]
  have hstate : (write st ns obj rows).1
      = stSetDb st ns (dbSetTree db obj (writeFold [] rows)) := by
    rw [write, writeF_eq [] rows h1 h2, writeLoop_nil]
  refine ⟨?_, hnodup, hchar, ?_⟩
  · rw [hstate]
    have hl1 : assocLookup ns
        ((stSetDb st ns (dbSetTree db obj (writeFold [] rows))).namespaces)
        = some (dbSetTree db obj (writeFold [] rows)) := by
      show assocLookup ns (setEntry ns _ st.namespaces) = _
      rw [assocLookup_setEntry_self, h1]
      rfl
    have hl2 : assocLookup obj ((dbSetTree db obj (writeFold [] rows)).trees)
        = some (writeFold [] rows) := by
      show assocLookup obj (setEntry obj _ db.trees) = _
      rw [assocLookup_setEntry_self, h2]
      rfl
    have hmem2 : obj ∈ (dbSetTree db obj (writeFold [] rows)).tree_names :=
      mem_tree_names.mpr (by simp [hl2])
    simp [readObj, hl1, hmem2, openTree_of_lookup hl2]
  · intro rows' hp hn k v
    have hn' : (rows'.map Prod.fst).Nodup := ((hp.map Prod.fst).nodup_iff).mpr hn
    have hnodup' : ((writeFold [] rows').map Prod.fst).Nodup :=
      nodup_writeFold rows' (by simp)
    rw [mem_iff_treeLookup hnodup' k v, treeLookup_writeFold_nil,
        lastWrite_eq_treeLookup hn', treeLookup_perm hp hn,
        ← lastWrite_eq_treeLookup hn, ← treeLookup_writeFold_nil,
        ← mem_iff_treeLookup hnodup k v]

/-- Witness for C3: a batch writing key [2] twice and key [1] once reads
back as exactly two rows, the repeated key carrying its last value. -/
theorem C3_witness :
    readObj (write ((createObject ((createNamespace ⟨[]⟩ "ns").1) "ns" "t").1)
        "ns" "t" [([2], [20]), ([1], [10]), ([2], [99])]).1 "ns" "t"
      = .ok (.ok (writeFold [] [([2], [20]), ([1], [10]), ([2], [99])])) ∧
    (([2], [99]) ∈ writeFold ([] : List Row) [([2], [20]), ([1], [10]), ([2], [99])]
      ↔ lastWrite [([2], [20]), ([1], [10]), ([2], [99])] [2] = some [99]) :=
  have h := C3_write_read_roundtrip
    ((createObject ((createNamespace ⟨[]⟩ "ns").1) "ns" "t").1) "ns" "t"
    ⟨[(defaultTreeName, []), ("t", [])]⟩ [([2], [20]), ([1], [10]), ([2], [99])] rfl rfl
  ⟨h.1, h.2.2.1 [2] [99]⟩

end Backend
